import Mathlib

namespace SanctionsLabor

/-!
Shallow embedding of the causal-inference pipeline in
`src/analysis_ml_methods.py`: the post-double-selection LASSO orchestration
(candidate-control screening, selection by coefficient magnitude, union of
the two selections, final OLS design matrix, reported statistics) and the
X-Learner orchestration (treatment-arm masking, pseudo-outcomes,
propensity-weighted combination, seeded subsampling).  Numeric values are
modelled as rationals.  The externally fitted solvers (scikit-learn's
cross-validated penalized fits, statsmodels' OLS) enter as explicit
parameters: the repository's own code consumes their outputs (coefficient
vectors, fit-result records) and all orchestration around those outputs is
embedded concretely below.
-/

/-- Column names excluded from the candidate-control scan
(`exclude_cols`, `analysis_ml_methods.py` lines 136-139). -/
def exclude_cols : List String :=
  ["ln_wage", "agri_post", "idind", "psu", "id", "inn", "wage_month",
   "wage", "industry", "region", "inwgt", "occupation", "occup", "occup08",
   "h5", "h6", "j1", "j10", "j4_1", "j8", "j11", "educ", "marst",
   "int_y", "interview_month", "h7_1", "h7_2"]

/-- A dataframe column as seen by the screening loop: its name, whether its
dtype is one of the accepted numeric dtypes, and its entries (`none` models a
missing value / NaN). -/
structure NamedCol where
  name : String
  isNumeric : Bool
  vals : List (Option ℚ)
deriving DecidableEq

/-- The non-missing entries of a column. -/
def colVals (c : NamedCol) : List ℚ := c.vals.filterMap id

/-- All entries of a list are equal (to the first one). -/
def allEqual : List ℚ → Bool
  | [] => true
  | x :: xs => xs.all (fun y => y == x)

/-- The pandas test `df_clean[c].std() == 0`: the sample standard deviation
(ddof = 1) is exactly zero iff there are at least two values and they are all
equal; with fewer than two values pandas returns NaN, which compares unequal
to zero. -/
def stdZero (xs : List ℚ) : Bool := decide (2 ≤ xs.length) && allEqual xs

/-- The body of the screening loop (`analysis_ml_methods.py` lines 141-151):
a column is kept as a candidate control iff its name is not excluded, its
dtype is numeric, it has no missing entries, and its standard deviation is
not exactly zero.  Each failing test is a `continue` in the source - the
column is skipped silently, no exception is raised. -/
def keepCol (c : NamedCol) : Bool :=
  !(exclude_cols.contains c.name) && c.isNumeric &&
    !(c.vals.any Option.isNone) && !(stdZero (colVals c))

/-- The screening loop's result `control_cols`: the names of the kept
columns, in column order. -/
def control_cols (cols : List NamedCol) : List String :=
  (cols.filter keepCol).map NamedCol.name

/-- Selection of a fitted penalized coefficient vector,
`np.where(np.abs(coef) > 1e-6)[0]` (lines 167 and 178): the indices whose
coefficient exceeds `1e-6` in absolute value, in increasing order. -/
def selectedSet (coef : List ℚ) : List ℕ :=
  (List.range coef.length).filter (fun i => decide ((1 : ℚ)/1000000 < |coef.getD i 0|))

/-- Insert a natural number into a sorted list. -/
def insSorted (x : ℕ) : List ℕ → List ℕ
  | [] => [x]
  | y :: ys => if x ≤ y then x :: y :: ys else y :: insSorted x ys

/-- Insertion sort on naturals. -/
def sortNat (l : List ℕ) : List ℕ := l.foldr insSorted []

/-- `np.union1d` (line 185): the sorted list of indices occurring in either
argument, without duplicates. -/
def union1d (a b : List ℕ) : List ℕ := sortNat ((a ++ b).dedup)

/-- Select the entries of a row at the column indices `u`
(`df_clean[selected_names].values` restricted to one row). -/
def selectCols (row : List ℚ) (u : List ℕ) : List ℚ :=
  u.map (fun j => row.getD j 0)

/-- `sm.add_constant` (line 199): prepend an all-ones column. -/
def addConst (m : List (List ℚ)) : List (List ℚ) := m.map (fun r => 1 :: r)

/-- The final design matrix construction (lines 193-199): if the union of
selected controls is nonempty, `np.column_stack([D, X_selected])`, otherwise
`D.reshape(-1, 1)`; in both cases followed by `sm.add_constant`. -/
def dsDesign (D : List ℚ) (X : List (List ℚ)) (u : List ℕ) : List (List ℚ) :=
  if u.isEmpty then addConst (D.map (fun d => [d]))
  else addConst (List.zipWith (fun d row => d :: selectCols row u) D X)

/-- The record returned by the external OLS fit, as the source consumes it:
coefficient vector `params`, standard errors `bse`, p-values `pvalues`. -/
structure FitResult where
  params : List ℚ
  bse : List ℚ
  pvalues : List ℚ
deriving DecidableEq

/-- The reported treatment coefficient `beta_lasso = results.params[1]`
(line 210), with the fit routine as an explicit parameter standing for
`sm.OLS(...).fit(...)`. -/
def beta_lasso (fit : List (List ℚ) → List ℚ → FitResult)
    (Y D : List ℚ) (X : List (List ℚ)) (coefY coefD : List ℚ) : ℚ :=
  (fit (dsDesign D X (union1d (selectedSet coefY) (selectedSet coefD))) Y).params.getD 1 0

/-- The regression specification named by the spec (section 4.4 step 4):
ordinary least squares of the Outcome on an intercept, the Treatment, and
the covariates in the union U.  This definition follows the spec's words,
for comparison with `dsDesign`. -/
def specUnionDesign (D : List ℚ) (X : List (List ℚ)) (u : List ℕ) : List (List ℚ) :=
  List.zipWith (fun d row => 1 :: d :: selectCols row u) D X

/-- A zipWith whose function ignores its second argument is a map, provided
the second list is at least as long as the first. -/
theorem zipWith_ignore {α β γ : Type} (f : α → γ) (D : List α) :
    ∀ (X : List β), D.length ≤ X.length →
      List.zipWith (fun d _ => f d) D X = D.map f := by
  induction D with
  | nil => intro X _; rfl
  | cons d D ih =>
    intro X h
    cases X with
    | nil => simp at h
    | cons x X =>
      simp only [List.zipWith, List.map]
      rw [ih X (by simpa using h)]

/-- The design matrix the code builds is exactly the spec's regression
design: each row is an intercept, the treatment value, then the
union-selected covariate values. -/
theorem dsDesign_eq_spec (D : List ℚ) (X : List (List ℚ)) (u : List ℕ)
    (h : X.length = D.length) : dsDesign D X u = specUnionDesign D X u := by
  cases u with
  | nil =>
    simp only [dsDesign, List.isEmpty_nil, if_true, addConst, List.map_map,
      specUnionDesign, selectCols, List.map_nil]
    exact (zipWith_ignore (fun d => 1 :: [d]) D X h.symm.le).symm
  | cons a u =>
    simp [dsDesign, addConst, specUnionDesign, List.map_zipWith]

/-- Column 1 of the spec design is the treatment vector. -/
theorem specUnionDesign_col1 (D : List ℚ) (u : List ℕ) :
    ∀ (X : List (List ℚ)), X.length = D.length →
      (specUnionDesign D X u).map (fun r => r.getD 1 0) = D := by
  induction D with
  | nil => intro X _; simp [specUnionDesign]
  | cons d D ih =>
    intro X h
    cases X with
    | nil => simp at h
    | cons x X =>
      simp only [specUnionDesign, List.zipWith, List.map, List.getD_cons_succ,
        List.getD_cons_zero]
      rw [show List.zipWith (fun d row => 1 :: d :: selectCols row u) D X
            = specUnionDesign D X u from rfl]
      rw [ih X (by simpa using h)]

/-- C1: the Double-Selection Estimator's reported treatment coefficient is
the coefficient at index 1 of the OLS fit of the outcome on the spec's
regression design [intercept, treatment, union-selected covariates], and
index 1 of that design is exactly the treatment regressor. -/
theorem C1_reported_coef_is_union_ols
    (fit : List (List ℚ) → List ℚ → FitResult)
    (Y D : List ℚ) (X : List (List ℚ)) (coefY coefD : List ℚ)
    (hlen : X.length = D.length) :
    beta_lasso fit Y D X coefY coefD
        = (fit (specUnionDesign D X (union1d (selectedSet coefY) (selectedSet coefD))) Y).params.getD 1 0
      ∧ (specUnionDesign D X (union1d (selectedSet coefY) (selectedSet coefD))).map
          (fun r => r.getD 1 0) = D := by
  constructor
  · unfold beta_lasso
    rw [dsDesign_eq_spec D X _ hlen]
  · exact specUnionDesign_col1 D _ X hlen

/-- A constant fit routine, used to instantiate witnesses. -/
def constFit (r : FitResult) : List (List ℚ) → List ℚ → FitResult := fun _ _ => r

/-- Witness for C1 at concrete data. -/
theorem C1_reported_coef_is_union_ols_witness :
    beta_lasso (constFit ⟨[5, 7], [1, 1], [0, 0]⟩) [1, 2] [0, 1] [[3], [4]] [1] [0]
        = ((constFit ⟨[5, 7], [1, 1], [0, 0]⟩)
            (specUnionDesign [0, 1] [[3], [4]] (union1d (selectedSet [1]) (selectedSet [0]))) [1, 2]).params.getD 1 0
      ∧ (specUnionDesign [0, 1] [[3], [4]] (union1d (selectedSet [1]) (selectedSet [0]))).map
          (fun r => r.getD 1 0) = [0, 1] :=
  C1_reported_coef_is_union_ols (constFit ⟨[5, 7], [1, 1], [0, 0]⟩)
    [1, 2] [0, 1] [[3], [4]] [1] [0] (by decide)

/-- C8 counterexample: a fitted coefficient equal to `1e-7` is nonzero, yet
the code's selection rule `|coef| > 1e-6` does not select it, so the
selected set is not the set of nonzero coefficients. -/
theorem C8_threshold_counterexample :
    ((1 : ℚ)/10000000 ≠ 0) ∧ selectedSet [(1 : ℚ)/10000000] = [] := by
  refine ⟨by norm_num, ?_⟩
  have h : ¬ ((1 : ℚ)/1000000 < |([(1 : ℚ)/10000000]).getD 0 0|) := by
    simp only [List.getD_cons_zero]
    rw [abs_of_nonneg (by norm_num)]
    norm_num
  have hr : List.range (List.length [(1 : ℚ)/10000000]) = [0] := by decide
  simp only [selectedSet, hr, List.filter, decide_eq_false h]

/-- C8 (amended): the selected control set consists of exactly the covariate
indices whose fitted coefficient exceeds `1e-6` in absolute value. -/
theorem C8_selection_iff_above_threshold (coef : List ℚ) (i : ℕ) :
    i ∈ selectedSet coef ↔ i < coef.length ∧ (1 : ℚ)/1000000 < |coef.getD i 0| := by
  simp [selectedSet, List.mem_filter, List.mem_range]

/-- C3 counterexample: an input whose second column has zero variance (two
equal non-missing numeric entries).  The screening loop completes normally
and returns the remaining candidate name - the zero-variance column is
silently dropped by a `continue`, no `InputError` is raised (no such
exception exists in the source). -/
theorem C3_zero_variance_silently_dropped :
    stdZero (colVals ⟨"z", true, [some 3, some 3]⟩) = true
      ∧ control_cols [⟨"x", true, [some 1, some 2]⟩, ⟨"z", true, [some 3, some 3]⟩]
          = ["x"] := by
  constructor
  · decide
  · decide

/-- C3 (amended): a zero-variance candidate column never raises an error; it
is silently excluded - the screening predicate rejects it, so it is absent
from the filtered column list and fitting proceeds with the remaining
candidates. -/
theorem C3_zero_variance_excluded (cols : List NamedCol) (c : NamedCol)
    (h : stdZero (colVals c) = true) :
    keepCol c = false ∧ c ∉ cols.filter keepCol := by
  have hk : keepCol c = false := by
    simp [keepCol, h]
  refine ⟨hk, fun hmem => ?_⟩
  have := List.of_mem_filter hmem
  rw [hk] at this
  exact Bool.false_ne_true this

/-- Witness for C3 (amended) at a concrete zero-variance column. -/
theorem C3_zero_variance_excluded_witness :
    keepCol ⟨"z", true, [some 3, some 3]⟩ = false
      ∧ ⟨"z", true, [some 3, some 3]⟩
          ∉ [NamedCol.mk "x" true [some 1, some 2],
             NamedCol.mk "z" true [some 3, some 3]].filter keepCol :=
  C3_zero_variance_excluded
    [⟨"x", true, [some 1, some 2]⟩, ⟨"z", true, [some 3, some 3]⟩]
    ⟨"z", true, [some 3, some 3]⟩ (by decide)

/-- The covariance type requested from the final fit (`cov_type=` argument,
lines 204-208). -/
inductive CovType where
  | cluster
  | hc1
deriving DecidableEq

/-- The final-fit dispatch (lines 204-208): cluster-robust covariance when
the cluster column is available, heteroskedasticity-robust HC1 otherwise.
The covariance-aware fit routine is an explicit parameter standing for
`model.fit(cov_type=..., ...)`. -/
def chooseFit (fitWith : CovType → List (List ℚ) → List ℚ → FitResult)
    (hasRegion : Bool) (design : List (List ℚ)) (Y : List ℚ) : FitResult :=
  if hasRegion then fitWith CovType.cluster design Y
  else fitWith CovType.hc1 design Y

/-- The record saved as `lasso_results` (lines 226-236). -/
structure LassoResults where
  coefficient : ℚ
  std_error : ℚ
  p_value : ℚ
  ci_lower : ℚ
  ci_upper : ℚ
  n_controls_selected : ℕ
  controls_selected : String
  n_obs : ℕ
deriving DecidableEq

/-- Construction of the saved record from the extracted statistics
(lines 226-236): the confidence bounds are `beta_lasso - 1.96*se_lasso` and
`beta_lasso + 1.96*se_lasso`, the control count is the size of the union,
and the listed names are the first 20 selected names joined by commas. -/
def mkLassoResults (beta se pval : ℚ) (names : List String) (nObs : ℕ) : LassoResults :=
  ⟨beta, se, pval, beta - (1.96 : ℚ) * se, beta + (1.96 : ℚ) * se,
   names.length, String.intercalate ", " (names.take 20), nObs⟩

/-- `selected_names` (line 188): the candidate-control names at the union
indices. -/
def selNames (names : List String) (u : List ℕ) : List String :=
  u.map (fun i => names.getD i "")

/-- The double-selection reporting pipeline (lines 184-236): form the union
of the two selections, build the final design, run the final fit with the
dispatched covariance type, extract the index-1 statistics, and assemble the
saved record. -/
def dsRun (fitWith : CovType → List (List ℚ) → List ℚ → FitResult)
    (hasRegion : Bool) (Y D : List ℚ) (X : List (List ℚ))
    (names : List String) (coefY coefD : List ℚ) : LassoResults :=
  let u := union1d (selectedSet coefY) (selectedSet coefD)
  let res := chooseFit fitWith hasRegion (dsDesign D X u) Y
  mkLassoResults (res.params.getD 1 0) (res.bse.getD 1 0) (res.pvalues.getD 1 0)
    (selNames names u) Y.length

/-- C7: the final fit uses the cluster-robust covariance estimator exactly
when a cluster vector is provided and HC1 otherwise, and the saved 95%
confidence interval is the point estimate plus/minus 1.96 standard errors
(equivalently: it is centred at the estimate with half-width 1.96 SE). -/
theorem C7_cov_dispatch_and_ci
    (fitWith : CovType → List (List ℚ) → List ℚ → FitResult)
    (hasRegion : Bool) (Y D : List ℚ) (X : List (List ℚ))
    (names : List String) (coefY coefD : List ℚ) :
    chooseFit fitWith hasRegion
        (dsDesign D X (union1d (selectedSet coefY) (selectedSet coefD))) Y
      = fitWith (if hasRegion then CovType.cluster else CovType.hc1)
          (dsDesign D X (union1d (selectedSet coefY) (selectedSet coefD))) Y
    ∧ (dsRun fitWith hasRegion Y D X names coefY coefD).ci_lower
        = (dsRun fitWith hasRegion Y D X names coefY coefD).coefficient
          - (1.96 : ℚ) * (dsRun fitWith hasRegion Y D X names coefY coefD).std_error
    ∧ (dsRun fitWith hasRegion Y D X names coefY coefD).ci_upper
        = (dsRun fitWith hasRegion Y D X names coefY coefD).coefficient
          + (1.96 : ℚ) * (dsRun fitWith hasRegion Y D X names coefY coefD).std_error
    ∧ (dsRun fitWith hasRegion Y D X names coefY coefD).ci_lower
        + (dsRun fitWith hasRegion Y D X names coefY coefD).ci_upper
        = 2 * (dsRun fitWith hasRegion Y D X names coefY coefD).coefficient := by
  refine ⟨?_, ?_, ?_, ?_⟩
  · cases hasRegion <;> simp [chooseFit]
  · simp only [dsRun, mkLassoResults]
  · simp only [dsRun, mkLassoResults]
  · simp only [dsRun, mkLassoResults]
    ring

/-- C5: when the union of the two selected control sets is empty, the final
design matrix degrades to the treatment-only specification (each row is the
intercept and the treatment value alone), and the saved output flags the
unadjusted fallback: zero selected controls and an empty selected-name
list. -/
theorem C5_empty_union_fallback
    (fitWith : CovType → List (List ℚ) → List ℚ → FitResult)
    (hasRegion : Bool) (Y D : List ℚ) (X : List (List ℚ))
    (names : List String) (coefY coefD : List ℚ)
    (h : union1d (selectedSet coefY) (selectedSet coefD) = []) :
    dsDesign D X (union1d (selectedSet coefY) (selectedSet coefD))
        = D.map (fun d => [1, d])
      ∧ (dsRun fitWith hasRegion Y D X names coefY coefD).n_controls_selected = 0
      ∧ (dsRun fitWith hasRegion Y D X names coefY coefD).controls_selected = "" := by
  refine ⟨?_, ?_, ?_⟩
  · rw [h]
    simp [dsDesign, addConst, List.map_map]
  · simp [dsRun, h, mkLassoResults, selNames]
  · simp only [dsRun, h, mkLassoResults, selNames, List.map_nil, List.take_nil]
    rfl

/-- The zero coefficient vector selects nothing. -/
theorem selectedSet_zero_coef : selectedSet [(0 : ℚ)] = [] := by
  have h : ¬ ((1 : ℚ)/1000000 < |([(0 : ℚ)]).getD 0 0|) := by
    simp only [List.getD_cons_zero, abs_zero]
    norm_num
  have hr : List.range (List.length [(0 : ℚ)]) = [0] := by decide
  simp only [selectedSet, hr, List.filter, decide_eq_false h]

/-- Witness for C5 at concrete data where both penalized fits return the
zero coefficient vector, hence both selections are empty. -/
theorem C5_empty_union_fallback_witness :
    dsDesign [0, 1] [[3], [4]] (union1d (selectedSet [0]) (selectedSet [0]))
        = ([0, 1] : List ℚ).map (fun d => [1, d])
      ∧ (dsRun (fun _ _ _ => ⟨[5, 7], [1, 1], [0, 0]⟩) true [1, 2] [0, 1] [[3], [4]]
            ["c0"] [0] [0]).n_controls_selected = 0
      ∧ (dsRun (fun _ _ _ => ⟨[5, 7], [1, 1], [0, 0]⟩) true [1, 2] [0, 1] [[3], [4]]
            ["c0"] [0] [0]).controls_selected = "" :=
  C5_empty_union_fallback (fun _ _ _ => ⟨[5, 7], [1, 1], [0, 0]⟩) true
    [1, 2] [0, 1] [[3], [4]] ["c0"] [0] [0]
    (by rw [selectedSet_zero_coef]; rfl)

/-- Boolean-mask selection, `v[T == t]` in numpy: the entries of `v` at the
positions where the aligned treatment vector equals `t`, in row order. -/
def maskSel {α : Type} (v : List α) (T : List ℕ) (t : ℕ) : List α :=
  ((v.zip T).filter (fun p => p.2 == t)).map Prod.fst

theorem maskSel_nil {α : Type} (T : List ℕ) (t : ℕ) :
    maskSel ([] : List α) T t = [] := rfl

theorem maskSel_nilT {α : Type} (v : List α) (t : ℕ) :
    maskSel v [] t = [] := by
  cases v <;> rfl

theorem maskSel_cons {α : Type} (x : α) (v : List α) (t0 : ℕ) (T : List ℕ) (t : ℕ) :
    maskSel (x :: v) (t0 :: T) t
      = if t0 == t then x :: maskSel v T t else maskSel v T t := by
  simp only [maskSel, List.zip_cons_cons, List.filter_cons]
  by_cases h : (t0 == t) <;> simp [h]

/-- The structured error the spec's section 7 names for an empty treatment
arm.  The source raises no such error: it appears here only so that the
orchestration's (error-free) result type can express the claimed behavior. -/
inductive XLearnerError where
  | emptyGroup
deriving DecidableEq

/-- The four training sets built in stage 1 of the X-Learner (lines 297-311):
control-group rows and outcomes, treated-group rows and outcomes. -/
structure XTrainData where
  ctrlX : List (List ℚ)
  ctrlY : List ℚ
  treatX : List (List ℚ)
  treatY : List ℚ
deriving DecidableEq

/-- Stage 1 of the X-Learner orchestration (lines 297-311): the control and
treated training sets are formed by the boolean masks `T_cf == 0` and
`T_cf == 1` and handed to the ensemble fits.  The source contains no
emptiness check and no raising statement between the masks and the fits, so
this stage always succeeds. -/
def xlearnerStep1 (X : List (List ℚ)) (Y : List ℚ) (T : List ℕ) :
    Except XLearnerError XTrainData :=
  Except.ok ⟨maskSel X T 0, maskSel Y T 0, maskSel X T 1, maskSel Y T 1⟩

/-- C4 counterexample: an input whose control arm has zero rows (every
treatment value is 1).  Stage 1 returns normally with an empty control
training set - the fit is attempted on zero rows instead of an
`EmptyGroupError` being raised before any model is fit. -/
theorem C4_no_empty_group_check :
    maskSel ([[0], [1]] : List (List ℚ)) [1, 1] 0 = []
      ∧ xlearnerStep1 [[0], [1]] [3, 4] [1, 1]
          = Except.ok ⟨[], [], [[0], [1]], [3, 4]⟩ := by
  constructor
  · decide
  · rfl

/-- For a 0/1-valued treatment vector aligned with `v`, the two masked
selections partition the entries of `v`. -/
theorem maskSel_binary_partition {α : Type} :
    ∀ (T : List ℕ) (v : List α), v.length = T.length →
      (∀ t ∈ T, t = 0 ∨ t = 1) →
      (maskSel v T 0).length + (maskSel v T 1).length = v.length := by
  intro T
  induction T with
  | nil =>
    intro v hv _
    rw [List.length_eq_zero.mp hv]
    simp [maskSel_nilT]
  | cons t0 T ih =>
    intro v hv hb
    cases v with
    | nil => simp at hv
    | cons x v =>
      have hv' : v.length = T.length := by simpa using hv
      have hb' : ∀ t ∈ T, t = 0 ∨ t = 1 := fun t ht => hb t (List.mem_cons_of_mem _ ht)
      rcases hb t0 (List.mem_cons_self _ _) with h0 | h1
      · subst h0
        rw [maskSel_cons, maskSel_cons,
          if_pos (show ((0 : ℕ) == 0) = true by decide),
          if_neg (show ¬ (((0 : ℕ) == 1) = true) by decide)]
        have := ih v hv' hb'
        simp only [List.length_cons]
        omega
      · subst h1
        rw [maskSel_cons, maskSel_cons,
          if_neg (show ¬ (((1 : ℕ) == 0) = true) by decide),
          if_pos (show ((1 : ℕ) == 1) = true by decide)]
        have := ih v hv' hb'
        simp only [List.length_cons]
        omega

/-- C4 (amended): the X-Learner performs no empty-arm check.  Stage 1 always
returns normally - even when one arm has zero rows - handing the masked
training sets (which, for a 0/1 treatment vector, partition the input rows)
straight to the ensemble fits. -/
theorem C4_step1_total_partition (X : List (List ℚ)) (Y : List ℚ) (T : List ℕ)
    (hY : Y.length = T.length) (hb : ∀ t ∈ T, t = 0 ∨ t = 1) :
    (∃ d, xlearnerStep1 X Y T = Except.ok d)
      ∧ (maskSel Y T 0).length + (maskSel Y T 1).length = Y.length :=
  ⟨⟨_, rfl⟩, maskSel_binary_partition T Y hY hb⟩

/-- Witness for C4 (amended) at concrete data. -/
theorem C4_step1_total_partition_witness :
    (∃ d, xlearnerStep1 [[0], [1]] [3, 4] [0, 1] = Except.ok d)
      ∧ (maskSel ([3, 4] : List ℚ) [0, 1] 0).length
          + (maskSel ([3, 4] : List ℚ) [0, 1] 1).length = ([3, 4] : List ℚ).length :=
  C4_step1_total_partition [[0], [1]] [3, 4] [0, 1] (by decide) (by decide)

/-- The pseudo-outcomes for control rows, `D_0 = mu_1[mask_0] - Y_cf[mask_0]`
(line 318). -/
def D_0 (mu1 Y : List ℚ) (T : List ℕ) : List ℚ :=
  List.zipWith (fun a b => a - b) (maskSel mu1 T 0) (maskSel Y T 0)

/-- The pseudo-outcomes for treated rows, `D_1 = Y_cf[mask_1] - mu_0[mask_1]`
(line 321). -/
def D_1 (mu0 Y : List ℚ) (T : List ℕ) : List ℚ :=
  List.zipWith (fun a b => a - b) (maskSel Y T 1) (maskSel mu0 T 1)

/-- Masking commutes with a row-wise binary operation on aligned vectors. -/
theorem maskSel_zipWith {α β γ : Type} (f : α → β → γ) :
    ∀ (T : List ℕ) (a : List α) (b : List β) (t : ℕ),
      a.length = T.length → b.length = T.length →
      List.zipWith f (maskSel a T t) (maskSel b T t)
        = maskSel (List.zipWith f a b) T t := by
  intro T
  induction T with
  | nil =>
    intro a b t ha hb
    rw [List.length_eq_zero.mp ha, List.length_eq_zero.mp hb]
    rfl
  | cons t0 T ih =>
    intro a b t ha hb
    cases a with
    | nil => simp at ha
    | cons x a =>
      cases b with
      | nil => simp at hb
      | cons y b =>
        have ha' : a.length = T.length := by simpa using ha
        have hb' : b.length = T.length := by simpa using hb
        rw [maskSel_cons, maskSel_cons, List.zipWith_cons_cons, maskSel_cons]
        by_cases h : (t0 == t)
        · rw [if_pos h, if_pos h, if_pos h, List.zipWith_cons_cons,
            ih a b t ha' hb']
        · rw [if_neg h, if_neg h, if_neg h, ih a b t ha' hb']

/-- C6: for every control-group row the pseudo-effect is the treated-model
prediction at that row minus that row's observed outcome, and for every
treated-group row it is the observed outcome minus the control-model
prediction at that row: the computed pseudo-outcome vectors are exactly the
row-wise differences restricted to the corresponding arm, in row order. -/
theorem C6_pseudo_outcomes (mu0 mu1 Y : List ℚ) (T : List ℕ)
    (h1 : mu1.length = T.length) (hY : Y.length = T.length)
    (h0 : mu0.length = T.length) :
    D_0 mu1 Y T = maskSel (List.zipWith (fun m y => m - y) mu1 Y) T 0
      ∧ D_1 mu0 Y T = maskSel (List.zipWith (fun y m => y - m) Y mu0) T 1 :=
  ⟨maskSel_zipWith (fun a b => a - b) T mu1 Y 0 h1 hY,
   maskSel_zipWith (fun a b => a - b) T Y mu0 1 hY h0⟩

/-- Witness for C6 at concrete data. -/
theorem C6_pseudo_outcomes_witness :
    D_0 [3, 4] [5, 6] [0, 1]
        = maskSel (List.zipWith (fun m y => m - y) [3, 4] [5, 6]) [0, 1] 0
      ∧ D_1 [1, 2] [5, 6] [0, 1]
          = maskSel (List.zipWith (fun y m => y - m) [5, 6] [1, 2]) [0, 1] 1 :=
  C6_pseudo_outcomes [1, 2] [3, 4] [5, 6] [0, 1] rfl rfl rfl

/-- Row-wise ternary zip, for elementwise numpy expressions over three
aligned arrays. -/
def zipWith3 {α β γ δ : Type} (f : α → β → γ → δ) :
    List α → List β → List γ → List δ
  | a :: as, b :: bs, c :: cs => f a b c :: zipWith3 f as bs cs
  | _, _, _ => []

/-- One row of the X-Learner combination (line 344):
`e * tau0 + (1 - e) * tau1`. -/
def tauRow (e tau0 tau1 : ℚ) : ℚ := e * tau0 + (1 - e) * tau1

/-- The combined effect array `tau_hat = e_x * tau_0_pred + (1 - e_x) *
tau_1_pred` (line 344), elementwise over the aligned arrays. -/
def tau_hat (e_x tau0 tau1 : List ℚ) : List ℚ := zipWith3 tauRow e_x tau0 tau1

/-- Entries of the combined array are the row combination of the
corresponding entries. -/
theorem tau_hat_getD :
    ∀ (ex t0s t1s : List ℚ) (k : ℕ), k < (tau_hat ex t0s t1s).length →
      (tau_hat ex t0s t1s).getD k 0
        = tauRow (ex.getD k 0) (t0s.getD k 0) (t1s.getD k 0) := by
  intro ex
  induction ex with
  | nil => intro t0s t1s k hk; simp [tau_hat, zipWith3] at hk
  | cons e ex ih =>
    intro t0s t1s k hk
    cases t0s with
    | nil => simp [tau_hat, zipWith3] at hk
    | cons a t0s =>
      cases t1s with
      | nil => simp [tau_hat, zipWith3] at hk
      | cons b t1s =>
        cases k with
        | zero => rfl
        | succ k =>
          simp only [List.getD_cons_succ]
          exact ih t0s t1s k (by simpa [tau_hat, zipWith3] using hk)

/-- C2: every row's final effect is the propensity-weighted combination of
the control-side and treated-side effect-model predictions; the two weights
sum to one, and when the propensity estimate lies in [0, 1] the combined
effect lies between the two predictions. -/
theorem C2_convex_combination (e t0 t1 : ℚ) (h0 : 0 ≤ e) (h1 : e ≤ 1) :
    tauRow e t0 t1 = e * t0 + (1 - e) * t1
      ∧ e + (1 - e) = 1
      ∧ min t0 t1 ≤ tauRow e t0 t1
      ∧ tauRow e t0 t1 ≤ max t0 t1
      ∧ ∀ (ex t0s t1s : List ℚ) (k : ℕ), k < (tau_hat ex t0s t1s).length →
          (tau_hat ex t0s t1s).getD k 0
            = tauRow (ex.getD k 0) (t0s.getD k 0) (t1s.getD k 0) := by
  refine ⟨rfl, by ring, ?_, ?_, tau_hat_getD⟩
  · rcases le_total t0 t1 with h | h
    · rw [min_eq_left h]
      have : 0 ≤ (1 - e) * (t1 - t0) := mul_nonneg (by linarith) (by linarith)
      unfold tauRow
      nlinarith
    · rw [min_eq_right h]
      have : 0 ≤ e * (t0 - t1) := mul_nonneg h0 (by linarith)
      unfold tauRow
      nlinarith
  · rcases le_total t0 t1 with h | h
    · rw [max_eq_right h]
      have : 0 ≤ e * (t1 - t0) := mul_nonneg h0 (by linarith)
      unfold tauRow
      nlinarith
    · rw [max_eq_left h]
      have : 0 ≤ (1 - e) * (t0 - t1) := mul_nonneg (by linarith) (by linarith)
      unfold tauRow
      nlinarith

/-- Witness for C2 at a concrete propensity and pair of predictions. -/
theorem C2_convex_combination_witness :
    tauRow (1/2) 0 1 = (1/2 : ℚ) * 0 + (1 - 1/2) * 1
      ∧ (1/2 : ℚ) + (1 - 1/2) = 1
      ∧ min (0 : ℚ) 1 ≤ tauRow (1/2) 0 1
      ∧ tauRow (1/2) 0 1 ≤ max (0 : ℚ) 1
      ∧ ∀ (ex t0s t1s : List ℚ) (k : ℕ), k < (tau_hat ex t0s t1s).length →
          (tau_hat ex t0s t1s).getD k 0
            = tauRow (ex.getD k 0) (t0s.getD k 0) (t1s.getD k 0) :=
  C2_convex_combination (1/2) 0 1 (by norm_num) (by norm_num)

/-- Arithmetic mean of a list of rationals (`np.mean`; the empty list gives
0 by the rational convention x/0 = 0). -/
def listMean (l : List ℚ) : ℚ := l.sum / l.length

/-- The subsample size `n_sample = min(30000, len(df_clean))` (line 259). -/
def n_sample (n : ℕ) : ℕ := min 30000 n

/-- `df_clean.iloc[sample_idx]` (line 261): the rows at the sampled indices,
in the order the index list gives them. -/
def subsample {α : Type} [Inhabited α] (rows : List α) (idx : List ℕ) : List α :=
  idx.map (fun i => rows.getD i default)

/-- The record saved as `cf_results` (lines 412-423), restricted to the
fields the embedding reasons about: the mean effect and the observation
count `n_obs = len(tau_hat)`. -/
structure CFResults where
  mean_tau : ℚ
  n_obs : ℕ
deriving DecidableEq

/-- Assembly of the saved X-Learner summary from the per-row effect array
(lines 412-423). -/
def cf_results (tau : List ℚ) : CFResults := ⟨listMean tau, tau.length⟩

/-- getD at an in-range position is a member of the list. -/
theorem getD_mem_of_lt {α : Type} :
    ∀ (l : List α) (k : ℕ), k < l.length → ∀ (d : α), l.getD k d ∈ l := by
  intro l
  induction l with
  | nil => intro k hk; simp at hk
  | cons a l ih =>
    intro k hk d
    cases k with
    | zero => exact List.mem_cons_self _ _
    | succ k => exact List.mem_cons_of_mem _ (ih k (by simpa using hk) d)

/-- getD of a mapped list at an in-range position is the function applied at
that position, whatever the defaults. -/
theorem getD_map_lt {α β : Type} (f : α → β) :
    ∀ (l : List α) (k : ℕ), k < l.length → ∀ (d : α) (e : β),
      (l.map f).getD k e = f (l.getD k d) := by
  intro l
  induction l with
  | nil => intro k hk; simp at hk
  | cons a l ih =>
    intro k hk d e
    cases k with
    | zero => rfl
    | succ k =>
      simp only [List.map, List.getD_cons_succ]
      exact ih k (by simpa using hk) d e

/-- C10: the per-row effect array is computed over the seeded subsample
only - its length is min(30000, N), the k-th effect belongs to input row
`sample_idx[k]`, the saved summary counts and averages exactly those
subsample effects (the mean's denominator is the subsample size), and when
N exceeds 30000 the effect array is strictly shorter than the input, so
rows outside the subsample receive no estimate. -/
theorem C10_effects_over_subsample {α : Type} [Inhabited α]
    (rows : List α) (idx : List ℕ) (tauOf : α → ℚ)
    (hlen : idx.length = n_sample rows.length)
    (hnd : idx.Nodup) (hbound : ∀ i ∈ idx, i < rows.length) :
    ((subsample rows idx).map tauOf).length = min 30000 rows.length
      ∧ (cf_results ((subsample rows idx).map tauOf)).n_obs = min 30000 rows.length
      ∧ (cf_results ((subsample rows idx).map tauOf)).mean_tau
          = ((subsample rows idx).map tauOf).sum / ((min 30000 rows.length : ℕ) : ℚ)
      ∧ (∀ k, k < idx.length →
          ((subsample rows idx).map tauOf).getD k 0
            = tauOf (rows.getD (idx.getD k 0) default))
      ∧ idx.dedup.length = min 30000 rows.length
      ∧ (∀ k, k < idx.length → idx.getD k 0 < rows.length)
      ∧ (30000 < rows.length → ((subsample rows idx).map tauOf).length < rows.length) := by
  have hτ : ((subsample rows idx).map tauOf).length = min 30000 rows.length := by
    simp [subsample, hlen, n_sample]
  refine ⟨hτ, hτ, ?_, ?_, ?_, ?_, ?_⟩
  · simp only [cf_results, listMean, hτ]
  · intro k hk
    have : (subsample rows idx).map tauOf
        = idx.map (fun i => tauOf (rows.getD i default)) := by
      simp [subsample, List.map_map]
    rw [this]
    exact getD_map_lt (fun i => tauOf (rows.getD i default)) idx k hk 0 0
  · rw [List.dedup_eq_self.mpr hnd, hlen]
    rfl
  · intro k hk
    exact hbound _ (getD_mem_of_lt idx k hk 0)
  · intro hN
    rw [hτ]
    omega

/-- Witness for C10 at a concrete two-row input with the sample indices
reversed. -/
theorem C10_effects_over_subsample_witness :
    ((subsample ([3, 5] : List ℚ) [1, 0]).map id).length = min 30000 ([3, 5] : List ℚ).length
      ∧ (cf_results ((subsample ([3, 5] : List ℚ) [1, 0]).map id)).n_obs
          = min 30000 ([3, 5] : List ℚ).length
      ∧ (cf_results ((subsample ([3, 5] : List ℚ) [1, 0]).map id)).mean_tau
          = ((subsample ([3, 5] : List ℚ) [1, 0]).map id).sum
              / ((min 30000 ([3, 5] : List ℚ).length : ℕ) : ℚ)
      ∧ (∀ k, k < ([1, 0] : List ℕ).length →
          ((subsample ([3, 5] : List ℚ) [1, 0]).map id).getD k 0
            = id (([3, 5] : List ℚ).getD (([1, 0] : List ℕ).getD k 0) default))
      ∧ ([1, 0] : List ℕ).dedup.length = min 30000 ([3, 5] : List ℚ).length
      ∧ (∀ k, k < ([1, 0] : List ℕ).length →
          ([1, 0] : List ℕ).getD k 0 < ([3, 5] : List ℚ).length)
      ∧ (30000 < ([3, 5] : List ℚ).length →
          ((subsample ([3, 5] : List ℚ) [1, 0]).map id).length < ([3, 5] : List ℚ).length) :=
  C10_effects_over_subsample [3, 5] [1, 0] id (by decide) (by decide) (by decide)

/-- Modelled from the spec: the tree-ensemble component (spec section 4.5)
is delegated by the source to an external library (`RandomForestRegressor`
/ `RandomForestClassifier` with a fixed `random_state`), so its internals
are not under `src/`.  Following the spec's words, each tree draws a
bootstrap sample with replacement of the same size as the training data,
grows a depth-limited tree by greedily choosing the split minimizing the
within-child squared error, and the ensemble prediction is the unweighted
mean of the member trees' predictions.  The random source for the bootstrap
draws is an explicit seeded linear congruential generator. -/
def lcgNext (s : ℕ) : ℕ := (1103515245 * s + 12345) % 2147483648

/-- The first `k` successive generator states after `s`. -/
def lcgStates : ℕ → ℕ → List ℕ
  | _, 0 => []
  | s, k + 1 => lcgNext s :: lcgStates (lcgNext s) k

/-- Modelled from the spec: a bootstrap draw of `n` row indices (with
replacement, same size as the data) from the seeded generator. -/
def bootstrapIdx (seed n : ℕ) : List ℕ :=
  (lcgStates seed n).map (fun s => (s / 65536) % n)

/-- A training row: covariate vector and target. -/
structure TRow where
  x : List ℚ
  y : ℚ
deriving DecidableEq, Inhabited

/-- The rows at the drawn bootstrap indices. -/
def sampleRows (rows : List TRow) (idx : List ℕ) : List TRow :=
  idx.map (fun i => rows.getD i default)

/-- Sum of squared deviations from the mean, the node impurity a regression
split minimizes. -/
def sse (ys : List ℚ) : ℚ := (ys.map (fun y => (y - listMean ys) ^ 2)).sum

/-- Rows sent to the left child of a split (feature value at most the
threshold). -/
def lowRows (rows : List TRow) (j : ℕ) (t : ℚ) : List TRow :=
  rows.filter (fun r => decide (r.x.getD j 0 ≤ t))

/-- Rows sent to the right child of a split. -/
def highRows (rows : List TRow) (j : ℕ) (t : ℚ) : List TRow :=
  rows.filter (fun r => decide (t < r.x.getD j 0))

/-- Within-child squared error of a candidate split. -/
def splitCost (rows : List TRow) (j : ℕ) (t : ℚ) : ℚ :=
  sse ((lowRows rows j t).map TRow.y) + sse ((highRows rows j t).map TRow.y)

/-- Candidate splits: every (feature, observed value) pair over the `p`
features. -/
def candSplits (rows : List TRow) (p : ℕ) : List (ℕ × ℚ) :=
  ((List.range p).map (fun j => rows.map (fun r => (j, r.x.getD j 0)))).flatten

/-- Candidate splits sending at least one row to each child. -/
def validSplits (rows : List TRow) (p : ℕ) : List (ℕ × ℚ) :=
  (candSplits rows p).filter
    (fun c => !(lowRows rows c.1 c.2).isEmpty && !(highRows rows c.1 c.2).isEmpty)

/-- The valid split of smallest within-child squared error, if any. -/
def bestSplit (rows : List TRow) (p : ℕ) : Option (ℕ × ℚ) :=
  (validSplits rows p).foldl
    (fun acc c =>
      match acc with
      | none => some c
      | some b =>
          if splitCost rows c.1 c.2 < splitCost rows b.1 b.2 then some c else some b)
    none

/-- A regression tree: leaves carry the mean target of their node. -/
inductive DTree where
  | leaf (val : ℚ)
  | node (feat : ℕ) (thresh : ℚ) (lo hi : DTree)
deriving DecidableEq

/-- Modelled from the spec: grow a tree greedily to the given maximum depth;
a node with no valid split (or at depth zero) becomes a leaf predicting the
node's mean target. -/
def buildTree (p : ℕ) : ℕ → List TRow → DTree
  | 0, rows => DTree.leaf (listMean (rows.map TRow.y))
  | d + 1, rows =>
    match bestSplit rows p with
    | none => DTree.leaf (listMean (rows.map TRow.y))
    | some (j, t) =>
        DTree.node j t (buildTree p d (lowRows rows j t)) (buildTree p d (highRows rows j t))

/-- Evaluate a tree on a query row. -/
def predictTree : DTree → List ℚ → ℚ
  | DTree.leaf v, _ => v
  | DTree.node j t lo hi, q =>
      if q.getD j 0 ≤ t then predictTree lo q else predictTree hi q

/-- Modelled from the spec: train `nTrees` trees, each on its own bootstrap
sample drawn from the explicit seed; the seed is configuration, not ambient
state. -/
def ensembleFit (seed nTrees depth p : ℕ) (rows : List TRow) : List DTree :=
  (List.range nTrees).map (fun i =>
    buildTree p depth (sampleRows rows (bootstrapIdx (seed + i) rows.length)))

/-- Ensemble prediction: the unweighted mean over member trees. -/
def ensemblePredict (trees : List DTree) (q : List ℚ) : ℚ :=
  listMean (trees.map (fun t => predictTree t q))

/-- C9 counterexample: two trainings with the same fixed seed on the same
rows in different order.  The second training set is a permutation of the
first, yet the ensemble's prediction at the same query differs: bootstrap
index draws attach to row positions, so ensemble predictions are not
invariant to the row order of the training data. -/
theorem C9_row_order_counterexample :
    ([TRow.mk [1] 6, TRow.mk [0] 0]).Perm [TRow.mk [0] 0, TRow.mk [1] 6]
      ∧ ensemblePredict (ensembleFit 42 1 0 1 [⟨[0], 0⟩, ⟨[1], 6⟩]) [0]
          ≠ ensemblePredict (ensembleFit 42 1 0 1 [⟨[1], 6⟩, ⟨[0], 0⟩]) [0] := by
  constructor
  · exact List.Perm.swap _ _ _
  · norm_num [ensembleFit, ensemblePredict, bootstrapIdx, lcgStates, lcgNext,
      sampleRows, buildTree, listMean, predictTree, List.range_succ]

/-- C9 (amended): for a fixed random seed the ensemble construction is a
deterministic function of the seed and the training data including its row
order - two runs with equal seed and equal row lists produce identical
trees and identical predictions (row-order invariance itself fails, as the
counterexample shows). -/
theorem C9_fixed_seed_reproducible (s1 s2 nT d p : ℕ) (rows1 rows2 : List TRow)
    (q : List ℚ) (hs : s1 = s2) (hr : rows1 = rows2) :
    ensembleFit s1 nT d p rows1 = ensembleFit s2 nT d p rows2
      ∧ ensemblePredict (ensembleFit s1 nT d p rows1) q
          = ensemblePredict (ensembleFit s2 nT d p rows2) q := by
  subst hs
  subst hr
  exact ⟨rfl, rfl⟩

/-- Witness for C9 (amended): two runs with seed 42 on the same data. -/
theorem C9_fixed_seed_reproducible_witness :
    ensembleFit 42 1 0 1 [TRow.mk [0] 0, TRow.mk [1] 6]
        = ensembleFit 42 1 0 1 [TRow.mk [0] 0, TRow.mk [1] 6]
      ∧ ensemblePredict (ensembleFit 42 1 0 1 [TRow.mk [0] 0, TRow.mk [1] 6]) [0]
          = ensemblePredict (ensembleFit 42 1 0 1 [TRow.mk [0] 0, TRow.mk [1] 6]) [0] :=
  C9_fixed_seed_reproducible 42 42 1 0 1 [⟨[0], 0⟩, ⟨[1], 6⟩] [⟨[0], 0⟩, ⟨[1], 6⟩]
    [0] rfl rfl

end SanctionsLabor
